import Mathlib

/-!
Verification of the controller bootstrap and event-routing layer in
`controllers/cmd/start.go`: the duration resolver `lookupEnvDurationOr`,
the bootstrap orchestrator `Start`, its manager-option assembly, its
watch wiring for the three controllers (eventbus, eventsource, sensor),
and the event filtering/routing semantics of the registered predicates
and handlers.

Modelling conventions:
- Go `time.Duration` is `Int` (nanoseconds).  `time.ParseDuration` is an
  external stdlib collaborator and is passed in as a parameter
  `parse : String → Option Duration` (`none` = parse error).
- The process environment is `String → Option String` (`none` = unset,
  mirroring the `found` flag of `os.LookupEnv`).
- `logger.Fatalw` / `logger.Fatalf` terminate the process with a
  non-zero exit code (zap `Fatal` calls `os.Exit(1)`); a fatal call is
  modelled as an aborting result constructor.
- Fallible external calls (config load/validation, manager creation,
  scheme registration, controller creation, watch registration, manager
  run) have their outcomes supplied by a `World` record, so `Start` is a
  pure function of its options and the world.
-/

namespace ArgoStart

/-- Go `time.Duration`, in nanoseconds. -/
abbrev Duration := Int

/-- One second, in nanoseconds (`time.Second`). -/
def second : Duration := 1000000000

/-- The controller global configuration is treated as an opaque value
passed through to the eventbus reconciler (its schema is out of scope). -/
abbrev Config := String

/-- The constant `imageEnvVar = "ARGO_EVENTS_IMAGE"` from the source. -/
def imageEnvVar : String := "ARGO_EVENTS_IMAGE"

/-- Result of `lookupEnvDurationOr`: either a duration, or process
termination via `logger.Fatalw` on an unparseable value (records the key
and offending value that were logged). -/
inductive DurationLookup where
  | ok (d : Duration)
  | fatalParse (key value : String)
deriving DecidableEq, Repr

/-- Shallow embedding of `lookupEnvDurationOr` (start.go lines 45-57):

    v, found := os.LookupEnv(key)
    if found && v != "" {
      d, err := time.ParseDuration(v)
      if err != nil { logger.With(key, v).Fatalw("parsing %s duration", ...) }
      else { return &d }
    }
    return &o

`parse` stands for `time.ParseDuration`; `env` for the process
environment. Note the `Fatalw` branch terminates the process: the
fallback `o` is returned only when the key is unset or empty. -/
def lookupEnvDurationOr (parse : String → Option Duration)
    (env : String → Option String) (key : String) (o : Duration) :
    DurationLookup :=
  match env key with
  | some v =>
    if v ≠ "" then
      match parse v with
      | none => .fatalParse key v
      | some d => .ok d
    else .ok o
  | none => .ok o

/-- The `ArgoEventsControllerOpts` struct from the source. -/
structure ArgoEventsControllerOpts where
  Namespaced : Bool
  ManagedNamespace : String
  LeaderElection : Bool
  MetricsPort : Int
  HealthPort : Int
deriving DecidableEq, Repr

/-- The `cache.Options` assembled in `Start`: `DefaultNamespaces` is the
list of namespaces the object cache is restricted to (the Go map's keys;
the per-namespace `cache.Config` values are empty structs). -/
structure CacheOptions where
  DefaultNamespaces : List String
deriving DecidableEq, Repr

/-- The `ctrl.Options` assembled in `Start` (the fields this file sets). -/
structure CtrlOptions where
  MetricsBindAddress : String
  HealthProbeBindAddress : String
  CacheOpts : Option CacheOptions
  LeaderElection : Bool
  LeaderElectionID : String
  LeaseDuration : Option Duration
  RenewDeadline : Option Duration
  RetryPeriod : Option Duration
deriving DecidableEq, Repr

/-- The resource kinds watched in `Start`. -/
inductive Kind where
  | EventBus | EventSource | Sensor
  | ConfigMap | StatefulSet | Service | Deployment
deriving DecidableEq, Repr

/-- The three controllers created in `Start`. -/
inductive CtrlName where
  | eventbus | eventsource | sensor
deriving DecidableEq, Repr

/-- Event-handler argument of a `Watch` call: `&handler.EnqueueRequestForObject{}`
or `handler.EnqueueRequestForOwner(..., &OwnerType{}, handler.OnlyControllerOwner())`. -/
inductive EventHandler where
  | enqueueSelf
  | enqueueOwnerOfKind (owner : Kind)
deriving DecidableEq, Repr

/-- Predicate argument of a `Watch` call: `predicate.GenerationChangedPredicate{}`,
`predicate.LabelChangedPredicate{}`, or `predicate.Or` of two predicates. -/
inductive Pred where
  | generationChanged
  | labelChanged
  | orP (p q : Pred)
deriving DecidableEq, Repr

/-- One `controller.Watch(...)` registration. -/
structure WatchRegistration where
  watchedKind : Kind
  eventHandler : EventHandler
  pred : Pred
deriving DecidableEq, Repr

/-- Which reconciler a controller was built with, recording the
data-bearing constructor arguments from the source:
`eventbus.NewReconciler(client, kubeClient, scheme, config, logger)`,
`eventsource.NewReconciler(client, scheme, imageName, logger)`,
`sensor.NewReconciler(client, scheme, imageName, logger)`.
`kubeClientPassed` records that the eventbus reconciler additionally
receives the direct kube client. -/
inductive ReconcilerSpec where
  | eventbusR (config : Config) (kubeClientPassed : Bool)
  | eventsourceR (imageName : String)
  | sensorR (imageName : String)
deriving DecidableEq, Repr

/-- A controller as built and wired by `Start`. -/
structure ControllerSpec where
  name : CtrlName
  reconciler : ReconcilerSpec
  watches : List WatchRegistration
deriving DecidableEq, Repr

/-- The bootstrap steps of `Start`, in source order.  Each step is either
fatal on failure (`logger.Fatalw` / `...OrDie`, which exit the process)
or, for the three leader-election duration lookups, fatal on a malformed
value via `lookupEnvDurationOr`. -/
inductive StartStep where
  | loadConfig | validateConfig | lookupImage
  | leaseLookup | renewLookup | retryLookup
  | getRestConfig | newManager | newKubeClient
  | addReadyz | addHealthz
  | schemeEventBus | schemeEventSource | schemeSensor
  | newEventBusController
  | watchEventBus | watchEventBusConfigMap
  | watchEventBusStatefulSet | watchEventBusService
  | newEventSourceController
  | watchEventSource | watchEventSourceDeployment | watchEventSourceService
  | newSensorController
  | watchSensor | watchSensorDeployment
  | runManager
deriving DecidableEq, Repr

/-- Outcomes of the external collaborators `Start` calls, supplied as
data so `Start` is a pure function.  `none` for an error field means the
call succeeds; `some msg` means it returns error `msg` (on which the
source calls `logger.Fatalw`). -/
structure World where
  env : String → Option String
  parse : String → Option Duration
  loadConfig : Except String Config
  validateConfig : Config → Option String
  getRestConfigErr : Option String
  newManagerErr : Option String
  newKubeClientErr : Option String
  addReadyzErr : Option String
  addHealthzErr : Option String
  schemeEventBusErr : Option String
  schemeEventSourceErr : Option String
  schemeSensorErr : Option String
  newControllerErr : CtrlName → Option String
  watchErr : CtrlName → Kind → Option String
  mgrStartErr : Option String

/-- State of the process after a successful bootstrap: the manager
options it was configured with and the three wired controllers. -/
structure StartedState where
  ctrlOpts : CtrlOptions
  controllers : List ControllerSpec
deriving DecidableEq, Repr

/-- Result of `Start`: a fatal abort at some step (carrying the
controllers registered before the abort), or the running manager. -/
inductive StartResult where
  | fatal (s : StartStep) (registered : List ControllerSpec)
  | running (st : StartedState)
deriving DecidableEq, Repr

/-- The observable outcome of `Start`: the bootstrap steps that completed
successfully, in execution order, and the result. -/
structure StartOutcome where
  completed : List StartStep
  result : StartResult
deriving DecidableEq, Repr

/-- Process exit code implied by a `StartResult`: zap's `Fatal` logging
calls `os.Exit(1)`; a running manager has not exited. -/
def exitCode : StartResult → Option Nat
  | .fatal _ _ => some 1
  | .running _ => none

/-- One fatal-on-error bootstrap step after option assembly: its
identity, the outcome of its external call, and its effect on the list
of already-registered controllers when it succeeds. -/
structure BootStep where
  step : StartStep
  err : Option String
  eff : List ControllerSpec → List ControllerSpec

/-- Append a watch registration to the controller named `n`. -/
def addWatch (n : CtrlName) (reg : WatchRegistration)
    (cs : List ControllerSpec) : List ControllerSpec :=
  cs.map fun c =>
    if c.name = n then { c with watches := c.watches ++ [reg] } else c

/-- Run the fatal-on-error bootstrap steps in order, threading the trace
of completed steps and the registered controllers; stop at the first
failing step (the source `Fatalw`s there, so nothing later runs). -/
def runSteps : List BootStep → List StartStep → List ControllerSpec →
    List StartStep × Except (StartStep × List ControllerSpec) (List ControllerSpec)
  | [], tr, cs => (tr, .ok cs)
  | b :: rest, tr, cs =>
    match b.err with
    | some _ => (tr, .error (b.step, cs))
    | none => runSteps rest (tr ++ [b.step]) (b.eff cs)

/-- The primary-watch predicate used for all three primary watches:
`predicate.Or(predicate.GenerationChangedPredicate{}, predicate.LabelChangedPredicate{})`. -/
def primaryPred : Pred := .orP .generationChanged .labelChanged

/-- The fatal-on-error bootstrap steps of `Start` after option assembly,
in source order (start.go lines 96-222): rest-config and manager
construction, kube client, probes, the three scheme registrations, and
the three controller builds each followed by its watch registrations. -/
def bootSteps (w : World) (config : Config) (imageName : String) :
    List BootStep :=
  [ ⟨.getRestConfig, w.getRestConfigErr, id⟩,
    ⟨.newManager, w.newManagerErr, id⟩,
    ⟨.newKubeClient, w.newKubeClientErr, id⟩,
    ⟨.addReadyz, w.addReadyzErr, id⟩,
    ⟨.addHealthz, w.addHealthzErr, id⟩,
    ⟨.schemeEventBus, w.schemeEventBusErr, id⟩,
    ⟨.schemeEventSource, w.schemeEventSourceErr, id⟩,
    ⟨.schemeSensor, w.schemeSensorErr, id⟩,
    ⟨.newEventBusController, w.newControllerErr .eventbus,
      fun cs => cs ++ [⟨.eventbus, .eventbusR config true, []⟩]⟩,
    ⟨.watchEventBus, w.watchErr .eventbus .EventBus,
      addWatch .eventbus ⟨.EventBus, .enqueueSelf, primaryPred⟩⟩,
    ⟨.watchEventBusConfigMap, w.watchErr .eventbus .ConfigMap,
      addWatch .eventbus ⟨.ConfigMap, .enqueueOwnerOfKind .EventBus, .generationChanged⟩⟩,
    ⟨.watchEventBusStatefulSet, w.watchErr .eventbus .StatefulSet,
      addWatch .eventbus ⟨.StatefulSet, .enqueueOwnerOfKind .EventBus, .generationChanged⟩⟩,
    ⟨.watchEventBusService, w.watchErr .eventbus .Service,
      addWatch .eventbus ⟨.Service, .enqueueOwnerOfKind .EventBus, .generationChanged⟩⟩,
    ⟨.newEventSourceController, w.newControllerErr .eventsource,
      fun cs => cs ++ [⟨.eventsource, .eventsourceR imageName, []⟩]⟩,
    ⟨.watchEventSource, w.watchErr .eventsource .EventSource,
      addWatch .eventsource ⟨.EventSource, .enqueueSelf, primaryPred⟩⟩,
    ⟨.watchEventSourceDeployment, w.watchErr .eventsource .Deployment,
      addWatch .eventsource ⟨.Deployment, .enqueueOwnerOfKind .EventSource, .generationChanged⟩⟩,
    ⟨.watchEventSourceService, w.watchErr .eventsource .Service,
      addWatch .eventsource ⟨.Service, .enqueueOwnerOfKind .EventSource, .generationChanged⟩⟩,
    ⟨.newSensorController, w.newControllerErr .sensor,
      fun cs => cs ++ [⟨.sensor, .sensorR imageName, []⟩]⟩,
    ⟨.watchSensor, w.watchErr .sensor .Sensor,
      addWatch .sensor ⟨.Sensor, .enqueueSelf, primaryPred⟩⟩,
    ⟨.watchSensorDeployment, w.watchErr .sensor .Deployment,
      addWatch .sensor ⟨.Deployment, .enqueueOwnerOfKind .Sensor, .generationChanged⟩⟩,
    ⟨.runManager, w.mgrStartErr, id⟩ ]

/-- Run `bootSteps` and package the outcome. -/
def startRest (w : World) (config : Config) (imageName : String)
    (opts : CtrlOptions) (tr : List StartStep) : StartOutcome :=
  match runSteps (bootSteps w config imageName) tr [] with
  | (tr2, .error (s, cs)) => ⟨tr2, .fatal s cs⟩
  | (tr2, .ok cs) => ⟨tr2, .running ⟨opts, cs⟩⟩

/-- The `ctrl.Options` value after the metrics/health bind addresses and
the `if eventsOpts.Namespaced` cache scoping (start.go lines 76-88),
before the leader-election block. -/
def baseOptions (eventsOpts : ArgoEventsControllerOpts) : CtrlOptions :=
  let opts0 : CtrlOptions :=
    { MetricsBindAddress := ":" ++ toString eventsOpts.MetricsPort
      HealthProbeBindAddress := ":" ++ toString eventsOpts.HealthPort
      CacheOpts := none
      LeaderElection := false
      LeaderElectionID := ""
      LeaseDuration := none
      RenewDeadline := none
      RetryPeriod := none }
  if eventsOpts.Namespaced then
    { opts0 with CacheOpts := some ⟨[eventsOpts.ManagedNamespace]⟩ }
  else opts0

/-- The trace after the three preflight steps. -/
def preTrace : List StartStep := [.loadConfig, .validateConfig, .lookupImage]

/-- Continuation of `Start` from the `ctrl.Options` assembly on
(start.go lines 76-222):
the `if eventsOpts.LeaderElection` block performs the three
`lookupEnvDurationOr` timing lookups, each fatal on a malformed value;
then the fatal-on-error step sequence `bootSteps` runs. -/
def startWithImage (eventsOpts : ArgoEventsControllerOpts) (w : World)
    (config : Config) (imageName : String) : StartOutcome :=
  let opts1 := baseOptions eventsOpts
  if eventsOpts.LeaderElection then
    match lookupEnvDurationOr w.parse w.env
        "LEADER_ELECTION_LEASE_DURATION" (15 * second) with
    | .fatalParse _ _ => ⟨preTrace, .fatal .leaseLookup []⟩
    | .ok lease =>
      match lookupEnvDurationOr w.parse w.env
          "LEADER_ELECTION_RENEW_DEADLINE" (10 * second) with
      | .fatalParse _ _ => ⟨preTrace ++ [.leaseLookup], .fatal .renewLookup []⟩
      | .ok renew =>
        match lookupEnvDurationOr w.parse w.env
            "LEADER_ELECTION_RETRY_PERIOD" (5 * second) with
        | .fatalParse _ _ =>
          ⟨preTrace ++ [.leaseLookup, .renewLookup], .fatal .retryLookup []⟩
        | .ok retry =>
          let opts2 :=
            { opts1 with
                LeaderElection := true
                LeaderElectionID := "argo-events-controller"
                LeaseDuration := some lease
                RenewDeadline := some renew
                RetryPeriod := some retry }
          startRest w config imageName opts2
            (preTrace ++ [.leaseLookup, .renewLookup, .retryLookup])
  else
    startRest w config imageName opts1 preTrace

/-- Continuation of `Start` after a successful config validation: look up
`ARGO_EVENTS_IMAGE` via `os.LookupEnv`, `Fatalf` if it is not defined
(start.go lines 72-75). -/
def startAfterValidate (eventsOpts : ArgoEventsControllerOpts) (w : World)
    (config : Config) : StartOutcome :=
  match w.env imageEnvVar with
  | none => ⟨[.loadConfig, .validateConfig], .fatal .lookupImage []⟩
  | some imageName => startWithImage eventsOpts w config imageName

/-- Continuation of `Start` after a successful config load:
`ValidateConfig`, `Fatalw` on
error (start.go lines 68-70). -/
def startAfterLoad (eventsOpts : ArgoEventsControllerOpts) (w : World)
    (config : Config) : StartOutcome :=
  match w.validateConfig config with
  | some _ => ⟨[.loadConfig], .fatal .validateConfig []⟩
  | none => startAfterValidate eventsOpts w config

/-- Shallow embedding of `Start` (start.go lines 59-222), staged in
source order: load config (fatal on error) → validate config (fatal on
error) → look up `ARGO_EVENTS_IMAGE` (fatal if not defined) → assemble
`ctrl.Options` (with the leader-election duration lookups when
`LeaderElection`) → the fatal-on-error step sequence `bootSteps`. -/
def Start (eventsOpts : ArgoEventsControllerOpts) (w : World) : StartOutcome :=
  match w.loadConfig with
  | .error _ => ⟨[], .fatal .loadConfig []⟩
  | .ok config => startAfterLoad eventsOpts w config

/-- The names of the fatal-on-error steps after option assembly, in
source order. -/
def restStepNames : List StartStep :=
  [ .getRestConfig, .newManager, .newKubeClient,
    .addReadyz, .addHealthz,
    .schemeEventBus, .schemeEventSource, .schemeSensor,
    .newEventBusController,
    .watchEventBus, .watchEventBusConfigMap,
    .watchEventBusStatefulSet, .watchEventBusService,
    .newEventSourceController,
    .watchEventSource, .watchEventSourceDeployment, .watchEventSourceService,
    .newSensorController,
    .watchSensor, .watchSensorDeployment,
    .runManager ]

/-- The bootstrap steps `Start` attempts, in order, for given options:
the three preflight steps, the three leader-election duration lookups
when `LeaderElection` is set, then the fatal-on-error step sequence. -/
def stepsFor (eventsOpts : ArgoEventsControllerOpts) : List StartStep :=
  [.loadConfig, .validateConfig, .lookupImage] ++
  (if eventsOpts.LeaderElection then
    [.leaseLookup, .renewLookup, .retryLookup] else []) ++
  restStepNames

/-- The controllers and watches `Start` registers when every step
succeeds, in registration order. -/
def expectedControllers (config : Config) (imageName : String) :
    List ControllerSpec :=
  [ ⟨.eventbus, .eventbusR config true,
      [⟨.EventBus, .enqueueSelf, primaryPred⟩,
       ⟨.ConfigMap, .enqueueOwnerOfKind .EventBus, .generationChanged⟩,
       ⟨.StatefulSet, .enqueueOwnerOfKind .EventBus, .generationChanged⟩,
       ⟨.Service, .enqueueOwnerOfKind .EventBus, .generationChanged⟩]⟩,
    ⟨.eventsource, .eventsourceR imageName,
      [⟨.EventSource, .enqueueSelf, primaryPred⟩,
       ⟨.Deployment, .enqueueOwnerOfKind .EventSource, .generationChanged⟩,
       ⟨.Service, .enqueueOwnerOfKind .EventSource, .generationChanged⟩]⟩,
    ⟨.sensor, .sensorR imageName,
      [⟨.Sensor, .enqueueSelf, primaryPred⟩,
       ⟨.Deployment, .enqueueOwnerOfKind .Sensor, .generationChanged⟩]⟩ ]

/-- The primary resource kind of each controller. -/
def primaryKind : CtrlName → Kind
  | .eventbus => .EventBus
  | .eventsource => .EventSource
  | .sensor => .Sensor

/-- An owner reference recorded on a subordinate object: the kind and
name of the owning object, and whether this reference is the controller
reference. -/
structure OwnerRef where
  kind : Kind
  name : String
  controller : Bool
deriving DecidableEq, Repr

/-- The object metadata the registered predicates and handlers read:
namespace, name, generation, labels, opaque status, owner references. -/
structure K8sObject where
  namespaceName : String
  name : String
  generation : Int
  labels : List (String × String)
  status : String
  ownerRefs : List OwnerRef
deriving DecidableEq, Repr

/-- An update event delivered to a watch. -/
structure UpdateEvent where
  objectOld : K8sObject
  objectNew : K8sObject
deriving DecidableEq, Repr

/-- A reconcile request key: the namespaced name enqueued for a
controller's work queue. -/
structure Request where
  namespaceName : String
  name : String
deriving DecidableEq, Repr

/-- Modelled from the spec: semantics of the controller-runtime
predicates used in `Start` (external library collaborators).
`GenerationChangedPredicate` passes an update iff the generation
changed; `LabelChangedPredicate` iff the labels changed; `predicate.Or`
passes iff either branch passes. -/
def evalPred : Pred → UpdateEvent → Bool
  | .generationChanged, e => e.objectOld.generation ≠ e.objectNew.generation
  | .labelChanged, e => e.objectOld.labels ≠ e.objectNew.labels
  | .orP p q, e => evalPred p e || evalPred q e

/-- The controller-owner reference of an object: the owner reference
with `controller: true`, if any (`handler.OnlyControllerOwner()` only
considers this one). -/
def controllerOwner (obj : K8sObject) : Option OwnerRef :=
  obj.ownerRefs.find? (·.controller)

/-- Modelled from the spec: semantics of the controller-runtime event
handlers used in `Start` (external library collaborators).
`EnqueueRequestForObject` enqueues the object's own namespaced name;
`EnqueueRequestForOwner(..., ownerKind, OnlyControllerOwner())` enqueues
the namespaced name of the object's controller-owner when that owner is
of `ownerKind`, and enqueues nothing otherwise (the event is dropped). -/
def handlerRequests : EventHandler → K8sObject → List Request
  | .enqueueSelf, obj => [⟨obj.namespaceName, obj.name⟩]
  | .enqueueOwnerOfKind owner, obj =>
    match controllerOwner obj with
    | some r => if r.kind = owner then [⟨obj.namespaceName, r.name⟩] else []
    | none => []

/-- The requests a watch registration enqueues for an update event: the
predicate filters the event, then the handler maps it to request keys. -/
def watchEnqueues (reg : WatchRegistration) (e : UpdateEvent) : List Request :=
  if evalPred reg.pred e then handlerRequests reg.eventHandler e.objectNew
  else []

/-- Modelled from the spec: a namespaced cache configuration restricts
the object cache (and so every watch) to its `DefaultNamespaces`; an
unrestricted cache admits every namespace. -/
def cacheAdmits (opts : CtrlOptions) (ns : String) : Bool :=
  match opts.CacheOpts with
  | none => true
  | some c => ns ∈ c.DefaultNamespaces

/-- Behaviour of a primary watch registration: its predicate is
`generationChanged OR labelChanged`, a status-only update (same
generation, same labels) enqueues nothing, and an update that changes
the generation or the labels enqueues exactly the object's own
namespaced name. -/
def primaryWatchBehavior (reg : WatchRegistration) : Prop :=
  reg.pred = .orP .generationChanged .labelChanged ∧
  ∀ e : UpdateEvent,
    (e.objectOld.generation = e.objectNew.generation →
     e.objectOld.labels = e.objectNew.labels →
     watchEnqueues reg e = []) ∧
    ((e.objectOld.generation ≠ e.objectNew.generation ∨
      e.objectOld.labels ≠ e.objectNew.labels) →
     watchEnqueues reg e = [⟨e.objectNew.namespaceName, e.objectNew.name⟩])

/-- Behaviour of a secondary (owner-routed) watch registration with
registered owner kind `O`: its predicate is `generationChanged` only; an
event passing the predicate whose object's controller-owner is of kind
`O` enqueues exactly the owner's namespaced name; an event whose
controller-owner is of a different kind, or that has no
controller-owner, enqueues nothing (dropped, no error). -/
def secondaryWatchBehavior (reg : WatchRegistration) (O : Kind) : Prop :=
  reg.pred = .generationChanged ∧
  ∀ e : UpdateEvent,
    (∀ r, controllerOwner e.objectNew = some r → r.kind = O →
      evalPred .generationChanged e = true →
      watchEnqueues reg e = [⟨e.objectNew.namespaceName, r.name⟩]) ∧
    (∀ r, controllerOwner e.objectNew = some r → ¬ r.kind = O →
      watchEnqueues reg e = []) ∧
    (controllerOwner e.objectNew = none → watchEnqueues reg e = [])

/-- The controller registered under name `n`, if any. -/
def findController (n : CtrlName) (cs : List ControllerSpec) :
    Option ControllerSpec :=
  cs.find? (fun c => c.name == n)

/-- A world in which every external call succeeds: the image variable is
set, config loads and validates, and every fallible step returns no
error. -/
def okWorld : World where
  env := fun k => if k = imageEnvVar then some "argo-events:test" else none
  parse := fun _ => none
  loadConfig := .ok "cfg"
  validateConfig := fun _ => none
  getRestConfigErr := none
  newManagerErr := none
  newKubeClientErr := none
  addReadyzErr := none
  addHealthzErr := none
  schemeEventBusErr := none
  schemeEventSourceErr := none
  schemeSensorErr := none
  newControllerErr := fun _ => none
  watchErr := fun _ _ => none
  mgrStartErr := none

/-- Cluster-scoped options without leader election. -/
def noLEOpts : ArgoEventsControllerOpts := ⟨false, "", false, 7777, 8081⟩

/-- Namespaced options with leader election. -/
def nsLEOpts : ArgoEventsControllerOpts := ⟨true, "ns-a", true, 9090, 8081⟩

/-- The started state `Start noLEOpts okWorld` reaches. -/
def okStateNoLE : StartedState :=
  ⟨⟨":7777", ":8081", none, false, "", none, none, none⟩,
   expectedControllers "cfg" "argo-events:test"⟩

/-- The started state `Start nsLEOpts okWorld` reaches. -/
def okStateLE : StartedState :=
  ⟨⟨":9090", ":8081", some ⟨["ns-a"]⟩, true, "argo-events-controller",
    some (15 * second), some (10 * second), some (5 * second)⟩,
   expectedControllers "cfg" "argo-events:test"⟩

/-- A world with no environment variables set at all. -/
def noImgWorld : World := { okWorld with env := fun _ => none }

/-- A world in which manager construction fails. -/
def failManagerWorld : World := { okWorld with newManagerErr := some "boom" }

/-- A world with the image variable set and a malformed (unparseable)
leader-election lease duration. -/
def malformedLeaseWorld : World :=
  { okWorld with env := fun k =>
      if k = imageEnvVar then some "argo-events:test"
      else if k = "LEADER_ELECTION_LEASE_DURATION" then some "oops" else none }

/-- An environment differing from `okWorld`'s only at the image key. -/
def altImageEnv : String → Option String :=
  fun k => if k = imageEnvVar then some "argo-events:other" else none

/-- The started state of a run identical to `okStateNoLE` except for the
image value. -/
def okStateNoLEAlt : StartedState :=
  ⟨⟨":7777", ":8081", none, false, "", none, none, none⟩,
   expectedControllers "cfg" "argo-events:other"⟩

lemma runSteps_ok (bs : List BootStep) (tr tr2 : List StartStep)
    (cs cs2 : List ControllerSpec)
    (h : runSteps bs tr cs = (tr2, .ok cs2)) :
    tr2 = tr ++ bs.map (fun b => b.step) ∧
    cs2 = bs.foldl (fun a b => b.eff a) cs := by
  induction bs generalizing tr cs with
  | nil =>
    simp only [runSteps, Prod.mk.injEq, Except.ok.injEq] at h
    simp [← h.1, ← h.2]
  | cons b rest ih =>
    rw [runSteps] at h
    cases hb : b.err with
    | some m => rw [hb] at h; simp at h
    | none =>
      rw [hb] at h
      obtain ⟨h1, h2⟩ := ih _ _ h
      constructor
      · simpa [List.append_assoc] using h1
      · simpa using h2

lemma runSteps_err (bs : List BootStep) (tr tr2 : List StartStep)
    (cs cs2 : List ControllerSpec) (s : StartStep)
    (h : runSteps bs tr cs = (tr2, .error (s, cs2))) :
    ∃ rest, tr ++ bs.map (fun b => b.step) = tr2 ++ s :: rest := by
  induction bs generalizing tr cs with
  | nil => simp [runSteps] at h
  | cons b rest ih =>
    rw [runSteps] at h
    cases hb : b.err with
    | some m =>
      rw [hb] at h
      simp only [Prod.mk.injEq, Except.error.injEq] at h
      obtain ⟨h1, h2, _⟩ := h
      exact ⟨rest.map (fun b => b.step), by simp [← h1, ← h2]⟩
    | none =>
      rw [hb] at h
      obtain ⟨r, hr⟩ := ih _ _ h
      exact ⟨r, by simpa [List.append_assoc] using hr⟩

lemma bootSteps_map (w : World) (config : Config) (imageName : String) :
    (bootSteps w config imageName).map (fun b => b.step) = restStepNames := rfl

lemma bootSteps_foldl (w : World) (config : Config) (imageName : String) :
    (bootSteps w config imageName).foldl (fun a b => b.eff a) [] =
      expectedControllers config imageName := rfl

lemma startRest_running_inv (w : World) (config : Config) (imageName : String)
    (opts : CtrlOptions) (tr0 tr : List StartStep) (st : StartedState)
    (h : startRest w config imageName opts tr0 = ⟨tr, .running st⟩) :
    tr = tr0 ++ restStepNames ∧ st = ⟨opts, expectedControllers config imageName⟩ := by
  unfold startRest at h
  rcases hrs : runSteps (bootSteps w config imageName) tr0 [] with ⟨tr2, r⟩
  rw [hrs] at h
  cases r with
  | error p => rcases p with ⟨s, cs⟩; simp at h
  | ok cs =>
    simp only [StartOutcome.mk.injEq, StartResult.running.injEq] at h
    obtain ⟨h1, h2⟩ := h
    obtain ⟨h3, h4⟩ := runSteps_ok _ _ _ _ _ hrs
    rw [bootSteps_map] at h3
    rw [bootSteps_foldl] at h4
    subst h1 h2 h3 h4
    exact ⟨rfl, rfl⟩

lemma Start_load_error (eopts : ArgoEventsControllerOpts) (w : World)
    (e : String) (h : w.loadConfig = .error e) :
    Start eopts w = ⟨[], .fatal .loadConfig []⟩ := by
  unfold Start; rw [h]

lemma Start_load_ok (eopts : ArgoEventsControllerOpts) (w : World)
    (config : Config) (h : w.loadConfig = .ok config) :
    Start eopts w = startAfterLoad eopts w config := by
  unfold Start; rw [h]

lemma startAfterLoad_invalid (eopts : ArgoEventsControllerOpts) (w : World)
    (config : Config) (e : String) (h : w.validateConfig config = some e) :
    startAfterLoad eopts w config = ⟨[.loadConfig], .fatal .validateConfig []⟩ := by
  unfold startAfterLoad; rw [h]

lemma startAfterLoad_valid (eopts : ArgoEventsControllerOpts) (w : World)
    (config : Config) (h : w.validateConfig config = none) :
    startAfterLoad eopts w config = startAfterValidate eopts w config := by
  unfold startAfterLoad; rw [h]

lemma startAfterValidate_noImage (eopts : ArgoEventsControllerOpts) (w : World)
    (config : Config) (h : w.env imageEnvVar = none) :
    startAfterValidate eopts w config =
      ⟨[.loadConfig, .validateConfig], .fatal .lookupImage []⟩ := by
  unfold startAfterValidate; rw [h]

lemma startAfterValidate_image (eopts : ArgoEventsControllerOpts) (w : World)
    (config : Config) (imageName : String)
    (h : w.env imageEnvVar = some imageName) :
    startAfterValidate eopts w config = startWithImage eopts w config imageName := by
  unfold startAfterValidate; rw [h]

lemma startWithImage_noLE (eopts : ArgoEventsControllerOpts) (w : World)
    (config : Config) (imageName : String)
    (h : eopts.LeaderElection = false) :
    startWithImage eopts w config imageName =
      startRest w config imageName (baseOptions eopts) preTrace := by
  unfold startWithImage; rw [h]; exact rfl

lemma startWithImage_leaseFatal (eopts : ArgoEventsControllerOpts) (w : World)
    (config : Config) (imageName k v : String)
    (h : eopts.LeaderElection = true)
    (hl : lookupEnvDurationOr w.parse w.env
        "LEADER_ELECTION_LEASE_DURATION" (15 * second) = .fatalParse k v) :
    startWithImage eopts w config imageName =
      ⟨preTrace, .fatal .leaseLookup []⟩ := by
  unfold startWithImage; rw [h, hl]; exact rfl

lemma startWithImage_renewFatal (eopts : ArgoEventsControllerOpts) (w : World)
    (config : Config) (imageName k v : String) (l : Duration)
    (h : eopts.LeaderElection = true)
    (hl : lookupEnvDurationOr w.parse w.env
        "LEADER_ELECTION_LEASE_DURATION" (15 * second) = .ok l)
    (hn : lookupEnvDurationOr w.parse w.env
        "LEADER_ELECTION_RENEW_DEADLINE" (10 * second) = .fatalParse k v) :
    startWithImage eopts w config imageName =
      ⟨preTrace ++ [.leaseLookup], .fatal .renewLookup []⟩ := by
  unfold startWithImage; rw [h, hl, hn]; exact rfl

lemma startWithImage_retryFatal (eopts : ArgoEventsControllerOpts) (w : World)
    (config : Config) (imageName k v : String) (l n : Duration)
    (h : eopts.LeaderElection = true)
    (hl : lookupEnvDurationOr w.parse w.env
        "LEADER_ELECTION_LEASE_DURATION" (15 * second) = .ok l)
    (hn : lookupEnvDurationOr w.parse w.env
        "LEADER_ELECTION_RENEW_DEADLINE" (10 * second) = .ok n)
    (hp : lookupEnvDurationOr w.parse w.env
        "LEADER_ELECTION_RETRY_PERIOD" (5 * second) = .fatalParse k v) :
    startWithImage eopts w config imageName =
      ⟨preTrace ++ [.leaseLookup, .renewLookup], .fatal .retryLookup []⟩ := by
  unfold startWithImage; rw [h, hl, hn, hp]; exact rfl

lemma startWithImage_LE (eopts : ArgoEventsControllerOpts) (w : World)
    (config : Config) (imageName : String) (l n p : Duration)
    (h : eopts.LeaderElection = true)
    (hl : lookupEnvDurationOr w.parse w.env
        "LEADER_ELECTION_LEASE_DURATION" (15 * second) = .ok l)
    (hn : lookupEnvDurationOr w.parse w.env
        "LEADER_ELECTION_RENEW_DEADLINE" (10 * second) = .ok n)
    (hp : lookupEnvDurationOr w.parse w.env
        "LEADER_ELECTION_RETRY_PERIOD" (5 * second) = .ok p) :
    startWithImage eopts w config imageName =
      startRest w config imageName
        { baseOptions eopts with
            LeaderElection := true
            LeaderElectionID := "argo-events-controller"
            LeaseDuration := some l
            RenewDeadline := some n
            RetryPeriod := some p }
        (preTrace ++ [.leaseLookup, .renewLookup, .retryLookup]) := by
  unfold startWithImage; rw [h, hl, hn, hp]; exact rfl

lemma baseOptions_CacheOpts (eopts : ArgoEventsControllerOpts) :
    (baseOptions eopts).CacheOpts =
      (if eopts.Namespaced then some ⟨[eopts.ManagedNamespace]⟩ else none) := by
  unfold baseOptions
  cases eopts.Namespaced <;> simp

lemma baseOptions_LeaderElection (eopts : ArgoEventsControllerOpts) :
    (baseOptions eopts).LeaderElection = false := by
  unfold baseOptions
  cases eopts.Namespaced <;> simp

lemma baseOptions_durations (eopts : ArgoEventsControllerOpts) :
    (baseOptions eopts).LeaseDuration = none ∧
    (baseOptions eopts).RenewDeadline = none ∧
    (baseOptions eopts).RetryPeriod = none := by
  unfold baseOptions
  cases eopts.Namespaced <;> simp

lemma start_running_inv (eopts : ArgoEventsControllerOpts) (w : World)
    (tr : List StartStep) (st : StartedState)
    (h : Start eopts w = ⟨tr, .running st⟩) :
    ∃ config imageName,
      w.loadConfig = .ok config ∧
      w.validateConfig config = none ∧
      w.env imageEnvVar = some imageName ∧
      st.controllers = expectedControllers config imageName ∧
      tr = stepsFor eopts ∧
      st.ctrlOpts.CacheOpts =
        (if eopts.Namespaced then some ⟨[eopts.ManagedNamespace]⟩ else none) ∧
      st.ctrlOpts.LeaderElection = eopts.LeaderElection ∧
      (eopts.LeaderElection = true →
        st.ctrlOpts.LeaderElectionID = "argo-events-controller" ∧
        ∃ l n p,
          lookupEnvDurationOr w.parse w.env
            "LEADER_ELECTION_LEASE_DURATION" (15 * second) = .ok l ∧
          lookupEnvDurationOr w.parse w.env
            "LEADER_ELECTION_RENEW_DEADLINE" (10 * second) = .ok n ∧
          lookupEnvDurationOr w.parse w.env
            "LEADER_ELECTION_RETRY_PERIOD" (5 * second) = .ok p ∧
          st.ctrlOpts.LeaseDuration = some l ∧
          st.ctrlOpts.RenewDeadline = some n ∧
          st.ctrlOpts.RetryPeriod = some p) ∧
      (eopts.LeaderElection = false →
        st.ctrlOpts.LeaderElection = false ∧
        st.ctrlOpts.LeaseDuration = none ∧
        st.ctrlOpts.RenewDeadline = none ∧
        st.ctrlOpts.RetryPeriod = none) := by
  cases hlc : w.loadConfig with
  | error e => rw [Start_load_error eopts w e hlc] at h; simp at h
  | ok config =>
  rw [Start_load_ok eopts w config hlc] at h
  cases hvc : w.validateConfig config with
  | some e => rw [startAfterLoad_invalid eopts w config e hvc] at h; simp at h
  | none =>
  rw [startAfterLoad_valid eopts w config hvc] at h
  cases henv : w.env imageEnvVar with
  | none => rw [startAfterValidate_noImage eopts w config henv] at h; simp at h
  | some imageName =>
  rw [startAfterValidate_image eopts w config imageName henv] at h
  refine ⟨config, imageName, rfl, hvc, rfl, ?_⟩
  cases hle : eopts.LeaderElection with
  | false =>
    rw [startWithImage_noLE eopts w config imageName hle] at h
    obtain ⟨h1, h2⟩ := startRest_running_inv _ _ _ _ _ _ _ h
    subst h2
    refine ⟨rfl, by simp [stepsFor, hle, h1, preTrace, restStepNames],
      baseOptions_CacheOpts eopts, ?_, by simp, ?_⟩
    · rw [baseOptions_LeaderElection]
    · intro _
      exact ⟨baseOptions_LeaderElection eopts, (baseOptions_durations eopts).1,
        (baseOptions_durations eopts).2.1, (baseOptions_durations eopts).2.2⟩
  | true =>
    cases hl : lookupEnvDurationOr w.parse w.env
        "LEADER_ELECTION_LEASE_DURATION" (15 * second) with
    | fatalParse k v =>
      rw [startWithImage_leaseFatal eopts w config imageName k v hle hl] at h
      simp at h
    | ok l =>
    cases hn : lookupEnvDurationOr w.parse w.env
        "LEADER_ELECTION_RENEW_DEADLINE" (10 * second) with
    | fatalParse k v =>
      rw [startWithImage_renewFatal eopts w config imageName k v l hle hl hn] at h
      simp at h
    | ok n =>
    cases hp : lookupEnvDurationOr w.parse w.env
        "LEADER_ELECTION_RETRY_PERIOD" (5 * second) with
    | fatalParse k v =>
      rw [startWithImage_retryFatal eopts w config imageName k v l n hle hl hn hp] at h
      simp at h
    | ok p =>
    rw [startWithImage_LE eopts w config imageName l n p hle hl hn hp] at h
    obtain ⟨h1, h2⟩ := startRest_running_inv _ _ _ _ _ _ _ h
    subst h2
    refine ⟨rfl, by simp [stepsFor, hle, h1, preTrace, restStepNames],
      baseOptions_CacheOpts eopts, by simp, ?_, by simp⟩
    intro _
    exact ⟨rfl, l, n, p, rfl, rfl, rfl, rfl, rfl, rfl⟩

lemma primaryWatchBehavior_holds (K : Kind) :
    primaryWatchBehavior ⟨K, .enqueueSelf, primaryPred⟩ := by
  refine ⟨rfl, fun e => ⟨?_, ?_⟩⟩
  · intro hg hl
    simp [watchEnqueues, evalPred, primaryPred, hg, hl]
  · intro h
    rcases h with h | h <;>
      simp [watchEnqueues, evalPred, primaryPred, h, handlerRequests]

lemma secondaryWatchBehavior_holds (K O : Kind) :
    secondaryWatchBehavior ⟨K, .enqueueOwnerOfKind O, .generationChanged⟩ O := by
  refine ⟨rfl, fun e => ⟨?_, ?_, ?_⟩⟩
  · intro r hr hk hpred
    simp [watchEnqueues, hpred, handlerRequests, hr, hk]
  · intro r hr hk
    cases hev : evalPred .generationChanged e <;>
      simp [watchEnqueues, hev, handlerRequests, hr, hk]
  · intro hr
    cases hev : evalPred .generationChanged e <;>
      simp [watchEnqueues, hev, handlerRequests, hr]

lemma lookupEnvDurationOr_fatal (parse : String → Option Duration)
    (env : String → Option String) (key o v)
    (henv : env key = some v) (hv : v ≠ "") (hp : parse v = none) :
    lookupEnvDurationOr parse env key o = .fatalParse key v := by
  unfold lookupEnvDurationOr
  rw [henv]
  simp [hv, hp]

lemma lookupEnvDurationOr_default (parse : String → Option Duration)
    (env : String → Option String) (key o)
    (h : env key = none ∨ env key = some "") :
    lookupEnvDurationOr parse env key o = .ok o := by
  unfold lookupEnvDurationOr
  rcases h with h | h <;> simp [h]

lemma stepsFor_nodup (eopts : ArgoEventsControllerOpts) :
    (stepsFor eopts).Nodup := by
  cases h : eopts.LeaderElection <;> simp only [stepsFor, h] <;> decide

lemma stepsFor_false (eopts : ArgoEventsControllerOpts)
    (h : eopts.LeaderElection = false) :
    stepsFor eopts = preTrace ++ restStepNames := by
  simp [stepsFor, h, preTrace]

lemma stepsFor_true (eopts : ArgoEventsControllerOpts)
    (h : eopts.LeaderElection = true) :
    stepsFor eopts =
      (preTrace ++ [.leaseLookup, .renewLookup, .retryLookup]) ++
        restStepNames := by
  simp [stepsFor, h, preTrace]

/-- Full trace characterization of `Start`: either every step completed
in order and the result is running, or the run stopped at a fatal step
and the completed trace is exactly the steps before it. -/
lemma start_outcome_char (eopts : ArgoEventsControllerOpts) (w : World) :
    (∃ st, (Start eopts w).result = .running st ∧
      (Start eopts w).completed = stepsFor eopts) ∨
    (∃ s cs rest, (Start eopts w).result = .fatal s cs ∧
      stepsFor eopts = (Start eopts w).completed ++ s :: rest) := by
  cases hlc : w.loadConfig with
  | error e =>
    right
    rw [Start_load_error eopts w e hlc]
    exact ⟨.loadConfig, [],
      [.validateConfig, .lookupImage] ++
        (if eopts.LeaderElection then
          [.leaseLookup, .renewLookup, .retryLookup] else []) ++
        restStepNames, rfl, by simp [stepsFor]⟩
  | ok config =>
  rw [Start_load_ok eopts w config hlc]
  cases hvc : w.validateConfig config with
  | some e =>
    right
    rw [startAfterLoad_invalid eopts w config e hvc]
    exact ⟨.validateConfig, [],
      [.lookupImage] ++
        (if eopts.LeaderElection then
          [.leaseLookup, .renewLookup, .retryLookup] else []) ++
        restStepNames, rfl, by simp [stepsFor]⟩
  | none =>
  rw [startAfterLoad_valid eopts w config hvc]
  cases henv : w.env imageEnvVar with
  | none =>
    right
    rw [startAfterValidate_noImage eopts w config henv]
    exact ⟨.lookupImage, [],
      (if eopts.LeaderElection then
        [.leaseLookup, .renewLookup, .retryLookup] else []) ++
        restStepNames, rfl, by simp [stepsFor]⟩
  | some imageName =>
  rw [startAfterValidate_image eopts w config imageName henv]
  cases hle : eopts.LeaderElection with
  | false =>
    rw [startWithImage_noLE eopts w config imageName hle]
    rcases hrs : runSteps (bootSteps w config imageName) preTrace [] with ⟨tr2, r⟩
    cases r with
    | ok cs =>
      left
      unfold startRest
      rw [hrs]
      obtain ⟨h3, -⟩ := runSteps_ok _ _ _ _ _ hrs
      rw [bootSteps_map] at h3
      exact ⟨⟨baseOptions eopts, cs⟩, rfl,
        by rw [stepsFor_false eopts hle]; exact h3⟩
    | error p =>
      rcases p with ⟨s, cs⟩
      right
      unfold startRest
      rw [hrs]
      obtain ⟨rest, hrest⟩ := runSteps_err _ _ _ _ _ _ hrs
      rw [bootSteps_map] at hrest
      exact ⟨s, cs, rest, rfl, by rw [stepsFor_false eopts hle]; exact hrest⟩
  | true =>
    cases hl : lookupEnvDurationOr w.parse w.env
        "LEADER_ELECTION_LEASE_DURATION" (15 * second) with
    | fatalParse k v =>
      right
      rw [startWithImage_leaseFatal eopts w config imageName k v hle hl]
      exact ⟨.leaseLookup, [], [.renewLookup, .retryLookup] ++ restStepNames,
        rfl, by rw [stepsFor_true eopts hle]; simp [preTrace]⟩
    | ok l =>
    cases hn : lookupEnvDurationOr w.parse w.env
        "LEADER_ELECTION_RENEW_DEADLINE" (10 * second) with
    | fatalParse k v =>
      right
      rw [startWithImage_renewFatal eopts w config imageName k v l hle hl hn]
      exact ⟨.renewLookup, [], [.retryLookup] ++ restStepNames,
        rfl, by rw [stepsFor_true eopts hle]; simp [preTrace]⟩
    | ok n =>
    cases hp : lookupEnvDurationOr w.parse w.env
        "LEADER_ELECTION_RETRY_PERIOD" (5 * second) with
    | fatalParse k v =>
      right
      rw [startWithImage_retryFatal eopts w config imageName k v l n hle hl hn hp]
      exact ⟨.retryLookup, [], restStepNames,
        rfl, by rw [stepsFor_true eopts hle]; simp [preTrace]⟩
    | ok p =>
    rw [startWithImage_LE eopts w config imageName l n p hle hl hn hp]
    rcases hrs : runSteps (bootSteps w config imageName)
        (preTrace ++ [.leaseLookup, .renewLookup, .retryLookup]) [] with ⟨tr2, r⟩
    cases r with
    | ok cs =>
      left
      unfold startRest
      rw [hrs]
      obtain ⟨h3, -⟩ := runSteps_ok _ _ _ _ _ hrs
      rw [bootSteps_map] at h3
      exact ⟨_, rfl, by rw [stepsFor_true eopts hle]; exact h3⟩
    | error q =>
      rcases q with ⟨s, cs⟩
      right
      unfold startRest
      rw [hrs]
      obtain ⟨rest, hrest⟩ := runSteps_err _ _ _ _ _ _ hrs
      rw [bootSteps_map] at hrest
      exact ⟨s, cs, rest, rfl, by rw [stepsFor_true eopts hle]; exact hrest⟩

/-- C1 counterexample: a present, non-empty, unparseable duration value
makes `lookupEnvDurationOr` terminate the process (`Fatalw`), not return
the fallback as the claim states. -/
theorem C1_counterexample :
    lookupEnvDurationOr (fun _ => none) (fun _ => some "10 seconds")
        "LEADER_ELECTION_LEASE_DURATION" (15 * second) =
      .fatalParse "LEADER_ELECTION_LEASE_DURATION" "10 seconds" ∧
    lookupEnvDurationOr (fun _ => none) (fun _ => some "10 seconds")
        "LEADER_ELECTION_LEASE_DURATION" (15 * second) ≠
      .ok (15 * second) := by
  exact ⟨rfl, by decide⟩

/-- C1 (amended): if an environment key is present with a non-empty
value that is not parseable as a duration, `lookupEnvDurationOr` logs
and raises a fatal error, terminating the process — it does not return
the fallback, and (second conjunct) a leader-election run of `Start`
reaching that lookup aborts fatally at the lookup step instead of
continuing startup. -/
theorem C1_fatal_on_malformed :
    (∀ (parse : String → Option Duration) (env : String → Option String)
        (key o v),
      env key = some v → v ≠ "" → parse v = none →
      lookupEnvDurationOr parse env key o = .fatalParse key v) ∧
    (∀ (eopts : ArgoEventsControllerOpts) (w : World) (config imageName v),
      eopts.LeaderElection = true →
      w.loadConfig = .ok config →
      w.validateConfig config = none →
      w.env imageEnvVar = some imageName →
      w.env "LEADER_ELECTION_LEASE_DURATION" = some v → v ≠ "" →
      w.parse v = none →
      Start eopts w = ⟨preTrace, .fatal .leaseLookup []⟩) := by
  refine ⟨lookupEnvDurationOr_fatal, ?_⟩
  intro eopts w config imageName v hle hlc hvc henv hkey hv hparse
  rw [Start_load_ok eopts w config hlc,
    startAfterLoad_valid eopts w config hvc,
    startAfterValidate_image eopts w config imageName henv,
    startWithImage_leaseFatal eopts w config imageName
      "LEADER_ELECTION_LEASE_DURATION" v hle
      (lookupEnvDurationOr_fatal w.parse w.env _ _ v hkey hv hparse)]

/-- C1 witness: the amended claim at concrete inputs — with value
"oops" set and unparseable, the resolver fatals, and a leader-election
`Start` run aborts at the lease lookup. -/
theorem C1_witness :
    lookupEnvDurationOr (fun _ => none) (fun _ => some "oops")
        "K" 7 = .fatalParse "K" "oops" ∧
    Start nsLEOpts malformedLeaseWorld = ⟨preTrace, .fatal .leaseLookup []⟩ :=
  ⟨C1_fatal_on_malformed.1 (fun _ => none) (fun _ => some "oops") "K" 7 "oops"
      rfl (by decide) rfl,
   C1_fatal_on_malformed.2 nsLEOpts malformedLeaseWorld "cfg" "argo-events:test"
      "oops" rfl rfl rfl (by decide) (by decide) (by decide) rfl⟩

/-- C2: every secondary (owner-routed) watch registered by a successful
`Start` has predicate `generationChanged` only, and its handler enqueues
the namespaced name of the subordinate object's controller-owner when
that owner is of the registered owner kind; if the controller-owner
names a different kind or is absent, the event is dropped with no
enqueue. -/
theorem C2_secondary_watch_routing :
    ∀ (eopts : ArgoEventsControllerOpts) (w : World) tr st,
    Start eopts w = ⟨tr, .running st⟩ →
    ∀ c, c ∈ st.controllers → ∀ reg, reg ∈ c.watches → ∀ O,
    reg.eventHandler = .enqueueOwnerOfKind O →
    secondaryWatchBehavior reg O := by
  intro eopts w tr st h c hc reg hr O hh
  obtain ⟨config, img, -, -, -, hctl, -⟩ := start_running_inv eopts w tr st h
  rw [hctl] at hc
  simp only [expectedControllers, List.mem_cons, List.not_mem_nil,
    or_false] at hc
  rcases hc with rfl | rfl | rfl <;>
    simp only [List.mem_cons, List.not_mem_nil, or_false] at hr
  · rcases hr with rfl | rfl | rfl | rfl
    · exact absurd hh (by simp)
    · cases hh; exact secondaryWatchBehavior_holds _ _
    · cases hh; exact secondaryWatchBehavior_holds _ _
    · cases hh; exact secondaryWatchBehavior_holds _ _
  · rcases hr with rfl | rfl | rfl
    · exact absurd hh (by simp)
    · cases hh; exact secondaryWatchBehavior_holds _ _
    · cases hh; exact secondaryWatchBehavior_holds _ _
  · rcases hr with rfl | rfl
    · exact absurd hh (by simp)
    · cases hh; exact secondaryWatchBehavior_holds _ _

/-- C2 witness: the ConfigMap watch of the eventbus controller, from a
concrete successful `Start` run. -/
theorem C2_witness :
    secondaryWatchBehavior
      ⟨.ConfigMap, .enqueueOwnerOfKind .EventBus, .generationChanged⟩
      .EventBus :=
  C2_secondary_watch_routing noLEOpts okWorld (stepsFor noLEOpts) okStateNoLE
    (by decide)
    ⟨.eventbus, .eventbusR "cfg" true,
      [⟨.EventBus, .enqueueSelf, primaryPred⟩,
       ⟨.ConfigMap, .enqueueOwnerOfKind .EventBus, .generationChanged⟩,
       ⟨.StatefulSet, .enqueueOwnerOfKind .EventBus, .generationChanged⟩,
       ⟨.Service, .enqueueOwnerOfKind .EventBus, .generationChanged⟩]⟩
    (by decide)
    ⟨.ConfigMap, .enqueueOwnerOfKind .EventBus, .generationChanged⟩
    (by decide) .EventBus rfl

/-- C3: every primary watch registered by a successful `Start` (its
handler enqueues the object itself) has predicate
`generationChanged OR labelChanged`; a status-only update (same
generation, same labels) never enqueues a reconcile, and an update
changing labels or bumping generation enqueues exactly one reconcile for
the object's own key. -/
theorem C3_primary_watch_self_enqueue :
    ∀ (eopts : ArgoEventsControllerOpts) (w : World) tr st,
    Start eopts w = ⟨tr, .running st⟩ →
    ∀ c, c ∈ st.controllers → ∀ reg, reg ∈ c.watches →
    reg.eventHandler = .enqueueSelf →
    reg.watchedKind = primaryKind c.name ∧ primaryWatchBehavior reg := by
  intro eopts w tr st h c hc reg hr hh
  obtain ⟨config, img, -, -, -, hctl, -⟩ := start_running_inv eopts w tr st h
  rw [hctl] at hc
  simp only [expectedControllers, List.mem_cons, List.not_mem_nil,
    or_false] at hc
  rcases hc with rfl | rfl | rfl <;>
    simp only [List.mem_cons, List.not_mem_nil, or_false] at hr
  · rcases hr with rfl | rfl | rfl | rfl
    · exact ⟨rfl, primaryWatchBehavior_holds _⟩
    all_goals exact absurd hh (by simp)
  · rcases hr with rfl | rfl | rfl
    · exact ⟨rfl, primaryWatchBehavior_holds _⟩
    all_goals exact absurd hh (by simp)
  · rcases hr with rfl | rfl
    · exact ⟨rfl, primaryWatchBehavior_holds _⟩
    all_goals exact absurd hh (by simp)

/-- C3 witness: the Sensor primary watch, from a concrete successful
`Start` run. -/
theorem C3_witness :
    (⟨.Sensor, .enqueueSelf, primaryPred⟩ : WatchRegistration).watchedKind =
      primaryKind (CtrlName.sensor) ∧
    primaryWatchBehavior ⟨.Sensor, .enqueueSelf, primaryPred⟩ :=
  C3_primary_watch_self_enqueue noLEOpts okWorld (stepsFor noLEOpts)
    okStateNoLE (by decide)
    ⟨.sensor, .sensorR "argo-events:test",
      [⟨.Sensor, .enqueueSelf, primaryPred⟩,
       ⟨.Deployment, .enqueueOwnerOfKind .Sensor, .generationChanged⟩]⟩
    (by decide)
    ⟨.Sensor, .enqueueSelf, primaryPred⟩ (by decide) rfl

/-- C4: if `ARGO_EVENTS_IMAGE` is unset, `Start` aborts fatally during
preflight (at config load, config validation, or the image lookup) with
no controller created and no watch registered, and the process exits
non-zero. -/
theorem C4_missing_image_aborts :
    ∀ (eopts : ArgoEventsControllerOpts) (w : World),
    w.env imageEnvVar = none →
    ∃ s, (Start eopts w).result = .fatal s [] ∧
      s ∈ ([.loadConfig, .validateConfig, .lookupImage] : List StartStep) ∧
      exitCode (Start eopts w).result = some 1 := by
  intro eopts w himg
  cases hlc : w.loadConfig with
  | error e =>
    refine ⟨.loadConfig, ?_, by decide, ?_⟩
    · rw [Start_load_error eopts w e hlc]
    · rw [Start_load_error eopts w e hlc]; rfl
  | ok config =>
    cases hvc : w.validateConfig config with
    | some e =>
      refine ⟨.validateConfig, ?_, by decide, ?_⟩
      · rw [Start_load_ok eopts w config hlc,
          startAfterLoad_invalid eopts w config e hvc]
      · rw [Start_load_ok eopts w config hlc,
          startAfterLoad_invalid eopts w config e hvc]
        rfl
    | none =>
      refine ⟨.lookupImage, ?_, by decide, ?_⟩
      · rw [Start_load_ok eopts w config hlc,
          startAfterLoad_valid eopts w config hvc,
          startAfterValidate_noImage eopts w config himg]
      · rw [Start_load_ok eopts w config hlc,
          startAfterLoad_valid eopts w config hvc,
          startAfterValidate_noImage eopts w config himg]
        rfl

/-- C4 witness: a concrete world with nothing in the environment. -/
theorem C4_witness :
    ∃ s, (Start noLEOpts noImgWorld).result = .fatal s [] ∧
      s ∈ ([.loadConfig, .validateConfig, .lookupImage] : List StartStep) ∧
      exitCode (Start noLEOpts noImgWorld).result = some 1 :=
  C4_missing_image_aborts noLEOpts noImgWorld rfl

/-- C5: if an environment key is absent, or present with an empty value,
`lookupEnvDurationOr` returns exactly the supplied fallback; and a
successful leader-election `Start` run with the three leader-election
keys unset configures the defaults 15s lease duration, 10s renew
deadline, and 5s retry period. -/
theorem C5_fallback_defaults :
    (∀ (parse : String → Option Duration) (env : String → Option String)
        (key : String) (o : Duration),
      env key = none ∨ env key = some "" →
      lookupEnvDurationOr parse env key o = .ok o) ∧
    (∀ (eopts : ArgoEventsControllerOpts) (w : World) tr st,
      Start eopts w = ⟨tr, .running st⟩ →
      eopts.LeaderElection = true →
      w.env "LEADER_ELECTION_LEASE_DURATION" = none →
      w.env "LEADER_ELECTION_RENEW_DEADLINE" = none →
      w.env "LEADER_ELECTION_RETRY_PERIOD" = none →
      st.ctrlOpts.LeaseDuration = some (15 * second) ∧
      st.ctrlOpts.RenewDeadline = some (10 * second) ∧
      st.ctrlOpts.RetryPeriod = some (5 * second)) := by
  refine ⟨lookupEnvDurationOr_default, ?_⟩
  intro eopts w tr st h hle h1 h2 h3
  obtain ⟨config, img, -, -, -, -, -, -, -, hT, -⟩ :=
    start_running_inv eopts w tr st h
  obtain ⟨-, l, n, p, hl, hn, hp, e1, e2, e3⟩ := hT hle
  rw [lookupEnvDurationOr_default w.parse w.env _ _ (Or.inl h1)] at hl
  rw [lookupEnvDurationOr_default w.parse w.env _ _ (Or.inl h2)] at hn
  rw [lookupEnvDurationOr_default w.parse w.env _ _ (Or.inl h3)] at hp
  injection hl with hl
  injection hn with hn
  injection hp with hp
  subst hl hn hp
  exact ⟨e1, e2, e3⟩

/-- C5 witness: absent key at concrete inputs, and the concrete
leader-election run of `Start` ends with the three defaults. -/
theorem C5_witness :
    lookupEnvDurationOr (fun _ => none) (fun _ => none) "K" 7 = .ok 7 ∧
    (okStateLE.ctrlOpts.LeaseDuration = some (15 * second) ∧
     okStateLE.ctrlOpts.RenewDeadline = some (10 * second) ∧
     okStateLE.ctrlOpts.RetryPeriod = some (5 * second)) :=
  ⟨C5_fallback_defaults.1 (fun _ => none) (fun _ => none) "K" 7 (Or.inl rfl),
   C5_fallback_defaults.2 nsLEOpts okWorld (stepsFor nsLEOpts) okStateLE
     (by decide) rfl (by decide) (by decide) (by decide)⟩

/-- C6: a successful `Start` registers exactly the wiring table — the
eventbus controller watches its primary EventBus resource plus
owner-routed ConfigMaps, StatefulSets and Services; the eventsource
controller watches EventSources plus owner-routed Deployments and
Services; the sensor controller watches Sensors plus owner-routed
Deployments — no other watches exist, and every owner-routed watch
routes to the kind of its own controller's primary resource. -/
theorem C6_watch_wiring :
    ∀ (eopts : ArgoEventsControllerOpts) (w : World) tr st,
    Start eopts w = ⟨tr, .running st⟩ →
    (∃ config imageName,
      w.loadConfig = .ok config ∧ w.env imageEnvVar = some imageName ∧
      st.controllers = expectedControllers config imageName) ∧
    st.controllers.map
        (fun c => (c.name,
          c.watches.map (fun reg => (reg.watchedKind, reg.eventHandler)))) =
      [ (.eventbus,
          [(.EventBus, .enqueueSelf),
           (.ConfigMap, .enqueueOwnerOfKind .EventBus),
           (.StatefulSet, .enqueueOwnerOfKind .EventBus),
           (.Service, .enqueueOwnerOfKind .EventBus)]),
        (.eventsource,
          [(.EventSource, .enqueueSelf),
           (.Deployment, .enqueueOwnerOfKind .EventSource),
           (.Service, .enqueueOwnerOfKind .EventSource)]),
        (.sensor,
          [(.Sensor, .enqueueSelf),
           (.Deployment, .enqueueOwnerOfKind .Sensor)]) ] ∧
    (∀ c, c ∈ st.controllers → ∀ reg, reg ∈ c.watches → ∀ O,
      reg.eventHandler = .enqueueOwnerOfKind O → O = primaryKind c.name) := by
  intro eopts w tr st h
  obtain ⟨config, img, hlc, -, henv, hctl, -⟩ := start_running_inv eopts w tr st h
  refine ⟨⟨config, img, hlc, henv, hctl⟩, by rw [hctl]; rfl, ?_⟩
  intro c hc reg hr O hh
  rw [hctl] at hc
  simp only [expectedControllers, List.mem_cons, List.not_mem_nil,
    or_false] at hc
  rcases hc with rfl | rfl | rfl <;>
    simp only [List.mem_cons, List.not_mem_nil, or_false] at hr
  · rcases hr with rfl | rfl | rfl | rfl
    · exact absurd hh (by simp)
    all_goals (cases hh; rfl)
  · rcases hr with rfl | rfl | rfl
    · exact absurd hh (by simp)
    all_goals (cases hh; rfl)
  · rcases hr with rfl | rfl
    · exact absurd hh (by simp)
    all_goals (cases hh; rfl)

/-- C6 witness: the wiring table of a concrete successful `Start` run. -/
theorem C6_witness :
    (∃ config imageName,
      okWorld.loadConfig = .ok config ∧
      okWorld.env imageEnvVar = some imageName ∧
      okStateNoLE.controllers = expectedControllers config imageName) ∧
    okStateNoLE.controllers.map
        (fun c => (c.name,
          c.watches.map (fun reg => (reg.watchedKind, reg.eventHandler)))) =
      [ (.eventbus,
          [(.EventBus, .enqueueSelf),
           (.ConfigMap, .enqueueOwnerOfKind .EventBus),
           (.StatefulSet, .enqueueOwnerOfKind .EventBus),
           (.Service, .enqueueOwnerOfKind .EventBus)]),
        (.eventsource,
          [(.EventSource, .enqueueSelf),
           (.Deployment, .enqueueOwnerOfKind .EventSource),
           (.Service, .enqueueOwnerOfKind .EventSource)]),
        (.sensor,
          [(.Sensor, .enqueueSelf),
           (.Deployment, .enqueueOwnerOfKind .Sensor)]) ] ∧
    (∀ c, c ∈ okStateNoLE.controllers → ∀ reg, reg ∈ c.watches → ∀ O,
      reg.eventHandler = .enqueueOwnerOfKind O → O = primaryKind c.name) :=
  C6_watch_wiring noLEOpts okWorld (stepsFor noLEOpts) okStateNoLE (by decide)

/-- C7: a successful `Start` with `namespaced=true` restricts the object
cache to exactly the single managed namespace (every watch inherits this
through the shared cache); with `namespaced=false` no namespace
restriction is configured and the cache admits every namespace. -/
theorem C7_cache_scoping :
    ∀ (eopts : ArgoEventsControllerOpts) (w : World) tr st,
    Start eopts w = ⟨tr, .running st⟩ →
    (eopts.Namespaced = true →
      st.ctrlOpts.CacheOpts = some ⟨[eopts.ManagedNamespace]⟩ ∧
      ∀ ns, cacheAdmits st.ctrlOpts ns = true ↔ ns = eopts.ManagedNamespace) ∧
    (eopts.Namespaced = false →
      st.ctrlOpts.CacheOpts = none ∧
      ∀ ns, cacheAdmits st.ctrlOpts ns = true) := by
  intro eopts w tr st h
  obtain ⟨-, -, -, -, -, -, -, hcache, -, -, -⟩ :=
    start_running_inv eopts w tr st h
  constructor
  · intro hns
    rw [hns] at hcache
    simp only [if_true] at hcache
    refine ⟨hcache, fun ns => ?_⟩
    simp [cacheAdmits, hcache]
  · intro hns
    rw [hns] at hcache
    simp only [Bool.false_eq_true, if_false] at hcache
    refine ⟨hcache, fun ns => ?_⟩
    simp [cacheAdmits, hcache]

/-- C7 witness: the namespaced concrete run restricts the cache to
"ns-a". -/
theorem C7_witness :
    ((nsLEOpts.Namespaced = true →
      okStateLE.ctrlOpts.CacheOpts = some ⟨[nsLEOpts.ManagedNamespace]⟩ ∧
      ∀ ns, cacheAdmits okStateLE.ctrlOpts ns = true ↔
        ns = nsLEOpts.ManagedNamespace) ∧
     (nsLEOpts.Namespaced = false →
      okStateLE.ctrlOpts.CacheOpts = none ∧
      ∀ ns, cacheAdmits okStateLE.ctrlOpts ns = true)) :=
  C7_cache_scoping nsLEOpts okWorld (stepsFor nsLEOpts) okStateLE (by decide)

/-- C8: bootstrap is all-or-nothing in spec order — a successful run
completes exactly the declared step sequence in order; a fatal failure
at step `s` leaves precisely the steps before `s` completed (nothing
after the failing step runs); no step is ever repeated; and every fatal
failure exits the process non-zero. -/
theorem C8_bootstrap_all_or_nothing :
    ∀ (eopts : ArgoEventsControllerOpts) (w : World),
    (∀ st, (Start eopts w).result = .running st →
      (Start eopts w).completed = stepsFor eopts) ∧
    (∀ s cs, (Start eopts w).result = .fatal s cs →
      ∃ rest, stepsFor eopts = (Start eopts w).completed ++ s :: rest) ∧
    (Start eopts w).completed.Nodup ∧
    (∀ s cs, (Start eopts w).result = .fatal s cs →
      exitCode (Start eopts w).result = some 1) := by
  intro eopts w
  rcases start_outcome_char eopts w with ⟨st, hres, hcomp⟩ |
    ⟨s, cs, rest, hres, hsteps⟩
  · refine ⟨fun st2 h2 => hcomp, fun s cs h2 => ?_, ?_, fun s cs h2 => ?_⟩
    · rw [hres] at h2; exact absurd h2 (by simp)
    · rw [hcomp]; exact stepsFor_nodup eopts
    · rw [hres] at h2; exact absurd h2 (by simp)
  · refine ⟨fun st2 h2 => ?_, fun s2 cs2 h2 => ?_, ?_, fun s2 cs2 h2 => ?_⟩
    · rw [hres] at h2; exact absurd h2 (by simp)
    · rw [hres] at h2
      injection h2 with h3 h4
      subst h3
      exact ⟨rest, hsteps⟩
    · have hsub : List.Sublist (Start eopts w).completed (stepsFor eopts) := by
        rw [hsteps]; exact List.sublist_append_left _ _
      exact List.Nodup.sublist hsub (stepsFor_nodup eopts)
    · rw [hres]; rfl

/-- C8 witness: with manager construction failing, the fatal step is
`newManager` and the completed trace is exactly the steps before it. -/
theorem C8_witness :
    ∃ rest, stepsFor noLEOpts =
      (Start noLEOpts failManagerWorld).completed ++ .newManager :: rest :=
  (C8_bootstrap_all_or_nothing noLEOpts failManagerWorld).2.1 .newManager []
    (by decide)

/-- C9: with `leaderElection=false` the three leader-election
environment variables are never consulted and no leader-election options
are set — two runs of `Start` whose environments differ only in those
three keys produce identical outcomes, and a successful run has leader
election off with no timing options configured. -/
theorem C9_leader_env_independence :
    ∀ (eopts : ArgoEventsControllerOpts) (w : World)
      (e2 : String → Option String),
    eopts.LeaderElection = false →
    (∀ k, k ≠ "LEADER_ELECTION_LEASE_DURATION" →
      k ≠ "LEADER_ELECTION_RENEW_DEADLINE" →
      k ≠ "LEADER_ELECTION_RETRY_PERIOD" → w.env k = e2 k) →
    Start eopts w = Start eopts { w with env := e2 } ∧
    (∀ tr st, Start eopts w = ⟨tr, .running st⟩ →
      st.ctrlOpts.LeaderElection = false ∧
      st.ctrlOpts.LeaseDuration = none ∧
      st.ctrlOpts.RenewDeadline = none ∧
      st.ctrlOpts.RetryPeriod = none) := by
  intro eopts w e2 hle hag
  have himg : w.env imageEnvVar = e2 imageEnvVar :=
    hag imageEnvVar (by decide) (by decide) (by decide)
  constructor
  · set w2 : World := { w with env := e2 } with hw2
    cases hlc : w.loadConfig with
    | error e =>
      have hl2 : w2.loadConfig = Except.error e := by rw [hw2]; exact hlc
      rw [Start_load_error eopts w e hlc, Start_load_error eopts w2 e hl2]
    | ok config =>
      have hl2 : w2.loadConfig = Except.ok config := by rw [hw2]; exact hlc
      rw [Start_load_ok eopts w config hlc, Start_load_ok eopts w2 config hl2]
      cases hvc : w.validateConfig config with
      | some e =>
        have hv2 : w2.validateConfig config = some e := by rw [hw2]; exact hvc
        rw [startAfterLoad_invalid eopts w config e hvc,
          startAfterLoad_invalid eopts w2 config e hv2]
      | none =>
        have hv2 : w2.validateConfig config = none := by rw [hw2]; exact hvc
        rw [startAfterLoad_valid eopts w config hvc,
          startAfterLoad_valid eopts w2 config hv2]
        cases henv : w.env imageEnvVar with
        | none =>
          have he2 : w2.env imageEnvVar = none := by
            rw [hw2]; exact himg.symm.trans henv
          rw [startAfterValidate_noImage eopts w config henv,
            startAfterValidate_noImage eopts w2 config he2]
        | some imageName =>
          have he2 : w2.env imageEnvVar = some imageName := by
            rw [hw2]; exact himg.symm.trans henv
          rw [startAfterValidate_image eopts w config imageName henv,
            startAfterValidate_image eopts w2 config imageName he2,
            startWithImage_noLE eopts w config imageName hle,
            startWithImage_noLE eopts w2 config imageName hle]
          rw [hw2]
          rfl
  · intro tr st h
    obtain ⟨-, -, -, -, -, -, -, -, -, -, hF⟩ :=
      start_running_inv eopts w tr st h
    exact hF hle

/-- C9 witness: a leader-election-disabled run is unchanged when the
lease-duration key's (malformed) value is removed from the environment. -/
theorem C9_witness :
    Start noLEOpts malformedLeaseWorld =
      Start noLEOpts { malformedLeaseWorld with env := okWorld.env } :=
  (C9_leader_env_independence noLEOpts malformedLeaseWorld okWorld.env rfl
    (by
      intro k h1 h2 h3
      by_cases hk : k = imageEnvVar <;>
        simp [malformedLeaseWorld, okWorld, hk, h1])).1

/-- C10: the image-identity value is passed only to the EventSource and
Sensor reconciler constructors — the EventBus reconciler is built from
the config (with the direct kube client) and not the image, so two runs
whose environments differ only at the image key build identical EventBus
controllers. -/
theorem C10_image_only_eventsource_sensor :
    (∀ (eopts : ArgoEventsControllerOpts) (w : World) tr st,
      Start eopts w = ⟨tr, .running st⟩ →
      ∃ config imageName,
        w.loadConfig = .ok config ∧ w.env imageEnvVar = some imageName ∧
        st.controllers.map (fun c => (c.name, c.reconciler)) =
          [(.eventbus, .eventbusR config true),
           (.eventsource, .eventsourceR imageName),
           (.sensor, .sensorR imageName)]) ∧
    (∀ (eopts : ArgoEventsControllerOpts) (w : World)
        (e2 : String → Option String),
      (∀ k, k ≠ imageEnvVar → w.env k = e2 k) →
      ∀ tr1 st1 tr2 st2,
        Start eopts w = ⟨tr1, .running st1⟩ →
        Start eopts { w with env := e2 } = ⟨tr2, .running st2⟩ →
        findController .eventbus st1.controllers =
          findController .eventbus st2.controllers) := by
  constructor
  · intro eopts w tr st h
    obtain ⟨config, img, hlc, -, henv, hctl, -⟩ :=
      start_running_inv eopts w tr st h
    rw [hctl]
    exact ⟨config, img, hlc, henv, rfl⟩
  · intro eopts w e2 hag tr1 st1 tr2 st2 h1 h2
    obtain ⟨c1, i1, hlc1, -, -, hctl1, -⟩ :=
      start_running_inv eopts w tr1 st1 h1
    obtain ⟨c2, i2, hlc2, -, -, hctl2, -⟩ :=
      start_running_inv eopts { w with env := e2 } tr2 st2 h2
    have hc : (Except.ok c1 : Except String Config) = Except.ok c2 :=
      hlc1.symm.trans hlc2
    injection hc with hc
    subst hc
    rw [hctl1, hctl2]
    rfl

/-- C10 witness: concrete runs differing only in the image value have
the same EventBus controller. -/
theorem C10_witness :
    findController .eventbus okStateNoLE.controllers =
      findController .eventbus okStateNoLEAlt.controllers :=
  (C10_image_only_eventsource_sensor).2 noLEOpts okWorld altImageEnv
    (by
      intro k hk
      simp [okWorld, altImageEnv, hk])
    (stepsFor noLEOpts) okStateNoLE (stepsFor noLEOpts) okStateNoLEAlt
    (by decide) (by decide)

end ArgoStart
